import Mathlib

/-!
Verification development for the hecs entity/component storage engine
(src/src/lib.rs and src/src/entity_builder.rs).

Machine integers of the source (u32 ids and generations, usize lengths) are
modelled as Nat: the spec (section 4.3) places id/generation wraparound out of
scope, and no claim depends on overflow behavior.  Panics and the undefined
behavior of precondition violations are modelled as the none case of Option
results.  The module archetype (declared in lib.rs line 1) has no source under
src/, so the Archetype operations are modelled from the spec, as marked on each
definition.
-/

namespace Hecs

/-- Component value for the fixed-arity (tuple) bundle path: a component is
identified by its type token (TypeId, modelled as Nat carrying the canonical
total order of the spec, section 4.1) together with its payload. -/
structure Value where
  ty : Nat
  val : Nat
deriving DecidableEq

/-- EntityMeta, lib.rs lines 99 to 103. -/
structure EntityMeta where
  generation : Nat
  archetype : Nat
  index : Nat
deriving DecidableEq

/-- Entity handle, lib.rs lines 105 to 109. -/
structure Entity where
  generation : Nat
  id : Nat
deriving DecidableEq

/-- Modelled from the spec: the module archetype (file archetype.rs) is declared
in lib.rs line 1 but its source is not under src/.  Following the data model of
spec section 3: an archetype owns one column per component type and a parallel
row-to-entity-id array; all columns share the row count.  A column is kept as a
pair of the type token and the payload list. -/
structure Archetype where
  columns : List (Nat × List Nat)
  rowEntities : List Nat
deriving DecidableEq

/-- Canonical type sequence of the archetype (its identity key). -/
def Archetype.types (a : Archetype) : List Nat :=
  a.columns.map Prod.fst

/-- Modelled from the spec (section 4.2, new): allocates one empty column header
per type of the canonical sequence. -/
def Archetype.new (tys : List Nat) : Archetype :=
  { columns := tys.map (fun t => (t, [])), rowEntities := [] }

/-- Modelled from the spec (section 4.2, allocate): reserves the next row in
every column (contents unwritten until store) and records the entity id;
returns the new row index. -/
def Archetype.allocate (a : Archetype) (entityId : Nat) : Nat × Archetype :=
  (a.rowEntities.length,
   { columns := a.columns.map (fun c => (c.1, c.2 ++ [0])),
     rowEntities := a.rowEntities ++ [entityId] })

/-- Writes one value into the column for type t at the given row; none when the
archetype has no column for t, where the offsets lookup unwrap of
ComponentSet::store (lib.rs line 130) panics. -/
def Archetype.put (a : Archetype) (t row v : Nat) : Option Archetype :=
  if a.columns.any (fun c => c.1 == t) then
    some { a with
            columns := a.columns.map (fun c =>
              if c.1 == t then (c.1, c.2.set row v) else c) }
  else none

/-- Modelled from the spec (section 4.2, store): moves every component of the
bundle into the column of its type at the freshly allocated row, which is the
last row.  Invoked by spawn through ComponentSet::store (lib.rs lines 58 to
61 and 126 to 134). -/
def Archetype.store (a : Archetype) (cs : List Value) : Option Archetype :=
  match cs with
  | [] => some a
  | c :: rest =>
    match a.put c.ty (a.rowEntities.length - 1) c.val with
    | none => none
    | some a1 => a1.store rest

/-- Modelled from the spec (sections 4.2 and 9, get): an explicit
type-membership check returns the explicit absent result (inner none) when the
archetype lacks a column for the requested type; an out-of-range row is a
precondition violation (section 7), modelled as the outer none. -/
def Archetype.get (a : Archetype) (t row : Nat) : Option (Option Nat) :=
  match a.columns.find? (fun c => c.1 == t) with
  | none => some none
  | some c =>
    match c.2.get? row with
    | none => none
    | some v => some (some v)

/-- Modelled from the spec (sections 4.2 and 9, get_mut): identical lookup shape
to Archetype.get, standing for the mutable-reference accessor. -/
def Archetype.get_mut (a : Archetype) (t row : Nat) : Option (Option Nat) :=
  match a.columns.find? (fun c => c.1 == t) with
  | none => some none
  | some c =>
    match c.2.get? row with
    | none => none
    | some v => some (some v)

/-- Modelled from the spec (section 4.2, remove): destructs the values at the
given row; when the row is not the last one, the last row is moved into it in
every column, preserving density, and the moved entity id is reported so that
its meta row index can be updated; the row count decrements.  An out-of-range
row is a precondition violation (section 7, undefined in the reference),
modelled as none. -/
def Archetype.remove (a : Archetype) (row : Nat) : Option (Archetype × Option Nat) :=
  let n := a.rowEntities.length
  if row < n then
    if row = n - 1 then
      some ({ columns := a.columns.map (fun c => (c.1, c.2.dropLast)),
              rowEntities := a.rowEntities.dropLast }, none)
    else
      let moved := a.rowEntities.getD (n - 1) 0
      some ({ columns := a.columns.map (fun c =>
                (c.1, (c.2.set row (c.2.getD (n - 1) 0)).dropLast)),
              rowEntities := (a.rowEntities.set row moved).dropLast }, some moved)
  else none

/-- World, lib.rs lines 10 to 15.  The FxHashMap from type-id keys to archetype
positions is modelled as an association list receiving new entries at the
front. -/
structure World where
  entities : List EntityMeta
  free : List Nat
  archetypes : List Archetype
  archetype_index : List (List Nat × Nat)
deriving DecidableEq

/-- World::new, lib.rs lines 18 to 25. -/
def World.new : World :=
  { entities := [], free := [], archetypes := [], archetype_index := [] }

/-- Lookup in the modelled archetype index (the occupied case of the entry API,
lib.rs line 48). -/
def findArchetype : List (List Nat × Nat) → List Nat → Option Nat
  | [], _ => none
  | (k, i) :: rest, key => if k = key then some i else findArchetype rest key

/-- Helper writing the index field of the meta at one position (lib.rs line 59).
Positions out of range are untouched. -/
def setIndexAt (es : List EntityMeta) (i row : Nat) : List EntityMeta :=
  match es.get? i with
  | some m => es.set i { m with index := row }
  | none => es

/-- The entry step of spawn into the archetype index (lib.rs lines 48 to 56):
an occupied entry yields the stored archetype position; a vacant entry pushes
a fresh archetype for the key and records its position. -/
def World.indexFor (w : World) (key : List Nat) : Nat × World :=
  match findArchetype w.archetype_index key with
  | some i => (i, w)
  | none =>
    (w.archetypes.length,
     { w with archetypes := w.archetypes ++ [Archetype.new key],
              archetype_index := (key, w.archetypes.length) :: w.archetype_index })

/-- Archetype lookup or creation, row allocation and component storage of spawn
(lib.rs lines 48 to 62), shared by both entity-allocation branches.  The
returned entity is the argument.  none models the panics of inconsistent
states: an index entry out of archetype range, or storage into a missing
column.  Note: as in the source, spawn records only the row index in the
entity meta (line 59); the meta archetype field is never assigned. -/
def World.spawnInto (w : World) (entity : Entity) (cs : List Value) :
    Option (Entity × World) :=
  let p := World.indexFor w (cs.map Value.ty)
  match p.2.archetypes.get? p.1 with
  | none => none
  | some arch =>
    let q := arch.allocate entity.id
    match q.2.store cs with
    | none => none
    | some arch2 =>
      some (entity,
        { p.2 with
            archetypes := p.2.archetypes.set p.1 arch2,
            entities := setIndexAt p.2.entities entity.id q.1 })

/-- World::spawn, lib.rs lines 27 to 63.  The free-list pop branch (lines 30 to
34) reuses the stored generation of the popped id; the fresh branch (lines 35
to 46) pushes a zeroed meta and hands out generation 0. -/
def World.spawn (w : World) (cs : List Value) : Option (Entity × World) :=
  match w.free with
  | i :: rest =>
    match w.entities.get? i with
    | none => none
    | some m => World.spawnInto { w with free := rest } ⟨m.generation, i⟩ cs
  | [] =>
    World.spawnInto { w with entities := w.entities ++ [⟨0, 0, 0⟩] }
      ⟨0, w.entities.length⟩ cs

/-- World::despawn, lib.rs lines 65 to 76.  The unchecked indexing into entities
panics for an out-of-range id (outer none).  A generation mismatch is a no-op
returning false.  On a match the stored generation is incremented and the row
recorded in the meta is removed from the archetype recorded in the meta; per
the spec (section 4.2) the removal reports the entity moved into the vacated
row and its meta row index is updated.  Note: as in the source, the freed id is
never pushed onto the free list. -/
def World.despawn (w : World) (e : Entity) : Option (Bool × World) :=
  match w.entities.get? e.id with
  | none => none
  | some meta =>
    if meta.generation ≠ e.generation then some (false, w)
    else
      let entities1 := w.entities.set e.id { meta with generation := meta.generation + 1 }
      match w.archetypes.get? meta.archetype with
      | none => none
      | some arch =>
        match arch.remove meta.index with
        | none => none
        | some r =>
          let entities2 :=
            match r.2 with
            | some m => setIndexAt entities1 m meta.index
            | none => entities1
          some (true,
            { w with entities := entities2,
                     archetypes := w.archetypes.set meta.archetype r.1 })

/-- World::get, lib.rs lines 78 to 84: unchecked meta indexing (outer none is
the panic), a generation mismatch gives the absent result (some none),
otherwise the archetype recorded in the meta is consulted. -/
def World.get (w : World) (e : Entity) (t : Nat) : Option (Option Nat) :=
  match w.entities.get? e.id with
  | none => none
  | some meta =>
    if meta.generation ≠ e.generation then some none
    else
      match w.archetypes.get? meta.archetype with
      | none => none
      | some arch => arch.get t meta.index

/-- World::get_mut, lib.rs lines 86 to 92: same lookup shape as World::get,
standing for the mutable accessor. -/
def World.get_mut (w : World) (e : Entity) (t : Nat) : Option (Option Nat) :=
  match w.entities.get? e.id with
  | none => none
  | some meta =>
    if meta.generation ≠ e.generation then some none
    else
      match w.archetypes.get? meta.archetype with
      | none => none
      | some arch => arch.get_mut t meta.index

/-- Public façade operations of the World (spec section 6). -/
inductive Op where
  | spawn (cs : List Value)
  | despawn (e : Entity)
  | get (e : Entity) (t : Nat)
  | get_mut (e : Entity) (t : Nat)

/-- One public operation applied to a world; none propagates a panic or
undefined behavior.  The accessors leave the world unchanged. -/
def World.step (w : World) (op : Op) : Option World :=
  match op with
  | .spawn cs => (w.spawn cs).map Prod.snd
  | .despawn e => (w.despawn e).map Prod.snd
  | .get e t => (w.get e t).map (fun _ => w)
  | .get_mut e t => (w.get_mut e t).map (fun _ => w)

/-- Sequencing of public operations. -/
def World.run (w : World) : List Op → Option World
  | [] => some w
  | op :: ops =>
    match w.step op with
    | none => none
    | some w1 => w1.run ops

/-- Staged component for the dynamic builder path: the type token carrying the
canonical order, the alignment (a power of two in Rust), and the raw bytes of
the value, whose count is its size. -/
structure Comp where
  ty : Nat
  align : Nat
  bytes : List Nat
deriving DecidableEq

/-- Rounds an address down to a multiple of the alignment: the source
expression (x & !(align - 1)) for a power-of-two align (entity_builder.rs
lines 50 to 51). -/
def alignDown (x a : Nat) : Nat := x / a * a

/-- Rust usize::next_power_of_two: the least power of two greater than or
equal to n (both 0 and 1 map to 1). -/
def nextPowerOfTwo (n : Nat) : Nat := 2 ^ Nat.clog 2 n

/-- Byte-wise write of bs into l starting at the given offset (the ptr::write
at the cursor, entity_builder.rs line 57). -/
def writeAt (l : List Nat) (off : Nat) (bs : List Nat) : List Nat :=
  match bs with
  | [] => l
  | b :: rest => writeAt (l.set off b) (off + 1) rest

/-- EntityBuilder, entity_builder.rs lines 22 to 29.  The storage is the byte
arena, with unwritten MaybeUninit bytes modelled as 0.  The cursor and the
recorded entry addresses are kept as offsets from the arena base; the base is
max_align-aligned (Layout::from_size_align, line 69), so the source alignment
arithmetic on absolute addresses coincides with the same arithmetic on
offsets. -/
structure EntityBuilder where
  storage : List Nat
  cursorOff : Nat
  max_align : Nat
  info : List (Nat × Nat)
  ids : List Nat
deriving DecidableEq

/-- EntityBuilder::new, entity_builder.rs lines 33 to 41: empty arena, null
cursor (offset 0 of an empty storage), max_align 16. -/
def EntityBuilder.new : EntityBuilder :=
  { storage := [], cursorOff := 0, max_align := 16, info := [], ids := [] }

/-- EntityBuilder::grow, entity_builder.rs lines 63 to 79: the new length is
((len + min_increment).next_power_of_two()).max(len * 2).max(64); the existing
bytes are copied to the tail of the new region and the cursor is set to the
start of that tail (base.add(new_len - old_len)). -/
def EntityBuilder.grow (b : EntityBuilder) (min_increment : Nat) : EntityBuilder :=
  let new_len := max (max (nextPowerOfTwo (b.storage.length + min_increment))
                          (b.storage.length * 2)) 64
  { b with storage := List.replicate (new_len - b.storage.length) 0 ++ b.storage,
           cursorOff := new_len - b.storage.length }

/-- EntityBuilder::add, entity_builder.rs lines 44 to 61, at the offset level:
raise max_align, grow when the backward bump of size bytes would underflow the
arena base (the two underflow checks of the source collapse to cursorOff <
size at the offset level, because after one grow the fresh headroom new_len -
old_len is at least the requested size, so the retry branch cannot fire
again), round the cursor down to the alignment, write the value bytes at the
cursor, and record the (type, address) entry.  Zero-sized components are out
of scope. -/
def EntityBuilder.add (b : EntityBuilder) (c : Comp) : EntityBuilder :=
  let size := c.bytes.length
  let b1 := { b with max_align := max b.max_align c.align }
  let b2 := if b1.cursorOff < size then b1.grow size else b1
  let off := alignDown (b2.cursorOff - size) c.align
  { b2 with cursorOff := off,
            storage := writeAt b2.storage off c.bytes,
            info := b2.info ++ [(c.ty, off)] }

/-- Chained add calls (the builder API is chainable, entity_builder.rs line
44). -/
def EntityBuilder.addAll (b : EntityBuilder) (cs : List Comp) : EntityBuilder :=
  cs.foldl EntityBuilder.add b

/-- EntityBuilder::build, entity_builder.rs lines 82 to 87: sorts the recorded
entries by the canonical type order and rebuilds the type-identity list (the
ids exposed through with_ids, which key the archetype index). -/
def EntityBuilder.build (b : EntityBuilder) : EntityBuilder :=
  let sorted := List.insertionSort (fun x y : Nat × Nat => x.1 ≤ y.1) b.info
  { b with info := sorted, ids := sorted.map Prod.fst }

/-- Ownership event on one staged entry (type token, arena offset): the entry
is either transferred into a destination archetype or destructed in place. -/
inductive OwnershipEvent where
  | transferred (ty off : Nat)
  | destructed (ty off : Nat)
deriving DecidableEq

/-- BuiltEntity::store, entity_builder.rs lines 108 to 112: drains every
recorded entry, handing each to Archetype::put_dynamic exactly once
(ownership transfer); the entry list is left empty. -/
def BuiltEntity.storeRun (b : EntityBuilder) : List OwnershipEvent × EntityBuilder :=
  (b.info.map (fun p => OwnershipEvent.transferred p.1 p.2), { b with info := [] })

/-- Drop for BuiltEntity, entity_builder.rs lines 115 to 123: drains every
recorded entry, invoking the destructor of each exactly once; the entry list
is left empty. -/
def BuiltEntity.dropRun (b : EntityBuilder) : List OwnershipEvent × EntityBuilder :=
  (b.info.map (fun p => OwnershipEvent.destructed p.1 p.2), { b with info := [] })

/-- Rust control flow when a BuiltEntity is passed to spawn: store consumes the
value, after which its Drop implementation still runs on the drained builder. -/
def BuiltEntity.spawnPath (b : EntityBuilder) : List OwnershipEvent × EntityBuilder :=
  let s := BuiltEntity.storeRun b
  let d := BuiltEntity.dropRun s.2
  (s.1 ++ d.1, d.2)

/-! Concrete operation sequences used to evaluate the code on failing inputs. -/

/-- Two entities spawned with distinct single-component signatures: entity 0
holds (type 0, value 10) in archetype 0, entity 1 holds (type 1, value 20) in
archetype 1. -/
def twoArchWorld : Option World :=
  (World.spawn World.new [⟨0, 10⟩]).bind fun p =>
    (World.spawn p.2 [⟨1, 20⟩]).map Prod.snd

/-- One entity spawned with (type 0, value 5) and then despawned. -/
def spawnDespawnWorld : Option World :=
  (World.spawn World.new [⟨0, 5⟩]).bind fun p =>
    (World.despawn p.2 ⟨0, 0⟩).map Prod.snd

/-- Three entities: id 0 with type 0 (archetype 0, row 0), ids 1 and 2 with
type 1 (archetype 1, rows 0 and 1). -/
def threeSpawnWorld : Option World :=
  (World.spawn World.new [⟨0, 1⟩]).bind fun p =>
    (World.spawn p.2 [⟨1, 2⟩]).bind fun q =>
      (World.spawn q.2 [⟨1, 3⟩]).map Prod.snd

/-- Concrete world for witnesses: entity 0 holds (type 0, value 5) in
archetype 0. -/
def oneSpawnWorld : World :=
  ((World.spawn World.new [⟨0, 5⟩]).map Prod.snd).getD World.new

/-- The world of oneSpawnWorld after despawning entity 0. -/
def c6DespawnedWorld : World :=
  ((World.despawn oneSpawnWorld ⟨0, 0⟩).getD (false, World.new)).2

/-- The despawned world after a further spawn, for the C6 witness. -/
def c6FinalWorld : World :=
  (World.run c6DespawnedWorld [Op.spawn [⟨0, 2⟩]]).getD World.new

/-- The world of oneSpawnWorld after one despawn step, for the C10 witness. -/
def c10SteppedWorld : World :=
  (oneSpawnWorld.step (Op.despawn ⟨0, 0⟩)).getD World.new

/-- C1: a live handle no longer resolves to the values passed at its spawn.
After spawning entity 0 with component (type 0, value 10) and entity 1 with
(type 1, value 20), the handle of entity 1 is live (its stored generation 0
matches), yet get returns the absent result instead of value 20: spawn records
only the row index in the meta and never the archetype position (lib.rs line
59), so get consults archetype 0 instead of archetype 1. -/
theorem c1_spawn_values_lost :
    twoArchWorld.map (fun w =>
        ((w.entities.get? 1).map EntityMeta.generation, World.get w ⟨0, 1⟩ 1))
      = some (some 0, some none) := rfl

/-- C2 counterexample: two spawns supplying the same component types in
different tuple orders land in different archetypes (count 2), while the same
order twice shares one archetype (count 1): the tuple path keys the archetype
index by the supplied order (lib.rs lines 48 and 120 to 122), without
canonical sorting. -/
theorem c2_tuple_order_counterexample :
    ((World.spawn World.new [⟨0, 1⟩, ⟨1, 2⟩]).bind (fun p =>
        (World.spawn p.2 [⟨1, 2⟩, ⟨0, 1⟩]).map fun q => q.2.archetypes.length)
      = some 2) ∧
    ((World.spawn World.new [⟨0, 1⟩, ⟨1, 2⟩]).bind (fun p =>
        (World.spawn p.2 [⟨0, 1⟩, ⟨1, 2⟩]).map fun q => q.2.archetypes.length)
      = some 1) :=
  ⟨rfl, rfl⟩

/-- C4: despawn never pushes the freed id onto the free list (lib.rs lines 65
to 76 contain no push), so the free list stays empty and the next spawn hands
out the fresh id 1 with generation 0 instead of reusing id 0 with its carried
generation 1. -/
theorem c4_freed_id_not_reused :
    spawnDespawnWorld.map (fun w =>
        (w.free, (World.spawn w [⟨0, 6⟩]).map Prod.fst))
      = some ([], some ⟨0, 1⟩) := rfl

/-- C5: the first despawn of the live handle of entity 2 does not return true:
its meta records archetype 0 (never assigned by spawn) with row index 1, and
archetype 0 has a single row, so the removal hits the out-of-range-row
precondition violation (panic / undefined behavior, modelled none). -/
theorem c5_live_despawn_panics :
    threeSpawnWorld.map (fun w =>
        ((w.entities.get? 2).map EntityMeta.generation, World.despawn w ⟨0, 2⟩))
      = some (some 0, none) := rfl

/-- C9: get, get_mut and despawn index the entity-meta array by the handle id
with no bounds check (lib.rs lines 66, 79 and 87), so a handle whose id is at
least the number of ids ever allocated panics (none) instead of producing the
absent or false result. -/
theorem c9_out_of_range_panics (w : World) (e : Entity) (t : Nat)
    (h : w.entities.length ≤ e.id) :
    World.get w e t = none ∧ World.get_mut w e t = none ∧
      World.despawn w e = none := by
  have hnone : w.entities.get? e.id = none := List.get?_eq_none.mpr h
  refine ⟨?_, ?_, ?_⟩ <;>
    simp [World.get, World.get_mut, World.despawn, ← List.get?_eq_getElem?, hnone]

/-- Witness for C9 at a concrete input: the empty world has allocated no ids,
so the handle with id 0 panics all three operations. -/
theorem c9_out_of_range_panics_witness :
    World.get World.new ⟨0, 0⟩ 0 = none ∧ World.get_mut World.new ⟨0, 0⟩ 0 = none ∧
      World.despawn World.new ⟨0, 0⟩ = none :=
  c9_out_of_range_panics World.new ⟨0, 0⟩ 0 (Nat.le_refl 0)

/-- C3: for a live handle (stored generation matches) whose meta points at an
archetype lacking a column for the requested type, get and get_mut return the
absent result through the explicit membership check, never undefined behavior
(spec sections 4.2, 4.3 and 9; the check is modelled from the spec because
archetype.rs is not under src/). -/
theorem c3_missing_column_absent (w : World) (e : Entity) (t : Nat)
    (m : EntityMeta) (arch : Archetype)
    (hm : w.entities.get? e.id = some m)
    (hgen : m.generation = e.generation)
    (ha : w.archetypes.get? m.archetype = some arch)
    (ht : t ∉ arch.types) :
    World.get w e t = some none ∧ World.get_mut w e t = some none := by
  have hfind : arch.columns.find? (fun c => c.1 == t) = none := by
    refine List.find?_eq_none.mpr fun c hc => ?_
    simp only [beq_iff_eq]
    intro hct
    exact ht (hct ▸ List.mem_map_of_mem Prod.fst hc)
  constructor <;>
    simp [World.get, World.get_mut, Archetype.get, Archetype.get_mut,
          ← List.get?_eq_getElem?, hm, hgen, ha, hfind]

/-- Witness for C3 at a concrete input: the single archetype stores only type
0, and the live handle of entity 0 queried at type 1 gets the absent result. -/
theorem c3_missing_column_absent_witness :
    World.get oneSpawnWorld ⟨0, 0⟩ 1 = some none ∧
      World.get_mut oneSpawnWorld ⟨0, 0⟩ 1 = some none :=
  c3_missing_column_absent oneSpawnWorld ⟨0, 0⟩ 1 ⟨0, 0, 0⟩ ⟨[(0, [5])], [0]⟩
    rfl rfl rfl (by decide)

/-! Helper lemmas about the meta-list manipulations of the world
operations. -/

theorem length_setIndexAt (es : List EntityMeta) (i r : Nat) :
    (setIndexAt es i r).length = es.length := by
  unfold setIndexAt
  cases es.get? i <;> simp

theorem gen_setIndexAt (es : List EntityMeta) (i r j : Nat) :
    ((setIndexAt es i r).get? j).map EntityMeta.generation
      = (es.get? j).map EntityMeta.generation := by
  unfold setIndexAt
  cases h : es.get? i with
  | none => rfl
  | some m =>
    rcases eq_or_ne i j with rfl | hne
    · rw [List.get?_set_eq, h]
      simp
    · rw [List.get?_set_ne _ _ hne]

theorem spawnInto_shape (w : World) (ent : Entity) (cs : List Value)
    (p : Entity × World) (h : World.spawnInto w ent cs = some p) :
    p.1 = ent ∧ ∃ r, p.2.entities = setIndexAt w.entities ent.id r := by
  have hpe : (World.indexFor w (cs.map Value.ty)).2.entities = w.entities := by
    unfold World.indexFor
    cases findArchetype w.archetype_index (cs.map Value.ty) <;> rfl
  simp only [World.spawnInto] at h
  split at h
  · exact absurd h (by simp)
  next arch harch =>
    split at h
    · exact absurd h (by simp)
    next arch2 hstore =>
      injection h with h2
      subst h2
      exact ⟨rfl, (arch.allocate ent.id).1, by rw [hpe]⟩

theorem spawn_gens (w : World) (cs : List Value) (p : Entity × World)
    (h : World.spawn w cs = some p) :
    w.entities.length ≤ p.2.entities.length ∧
    ∀ j, j < w.entities.length →
      (p.2.entities.get? j).map EntityMeta.generation
        = (w.entities.get? j).map EntityMeta.generation := by
  unfold World.spawn at h
  split at h
  case _ i rest hfree =>
    split at h
    · exact absurd h (by simp)
    case _ m hm =>
      obtain ⟨-, r, hent⟩ := spawnInto_shape _ _ _ _ h
      rw [hent]
      exact ⟨(length_setIndexAt _ _ _).ge, fun j _ => gen_setIndexAt _ _ _ _⟩
  case _ hfree =>
    obtain ⟨-, r, hent⟩ := spawnInto_shape _ _ _ _ h
    rw [hent]
    constructor
    · rw [length_setIndexAt]
      simp
    · intro j hj
      rw [gen_setIndexAt, List.get?_append hj]

theorem despawn_cases (w : World) (e : Entity) (res : Bool × World)
    (h : World.despawn w e = some res) :
    (res.1 = false ∧ res.2 = w ∧
       ∃ m, w.entities.get? e.id = some m ∧ m.generation ≠ e.generation) ∨
    (res.1 = true ∧ res.2.entities.length = w.entities.length ∧
       (∀ j, j ≠ e.id →
          (res.2.entities.get? j).map EntityMeta.generation
            = (w.entities.get? j).map EntityMeta.generation) ∧
       (w.entities.get? e.id).map EntityMeta.generation = some e.generation ∧
       (res.2.entities.get? e.id).map EntityMeta.generation
         = some (e.generation + 1)) := by
  unfold World.despawn at h
  split at h
  · exact absurd h (by simp)
  case _ meta hm =>
    split at h
    case _ hne =>
      injection h with h2
      subst h2
      exact Or.inl ⟨rfl, rfl, meta, hm, hne⟩
    case _ heq =>
      push_neg at heq
      split at h
      · exact absurd h (by simp)
      · split at h
        · exact absurd h (by simp)
        case _ r hr =>
          injection h with h2
          subst h2
          refine Or.inr ⟨rfl, ?_, ?_, ?_, ?_⟩
          · cases r.2 <;>
              simp [length_setIndexAt, List.length_set]
          · intro j hj
            cases r.2
            · rw [List.get?_set_ne _ _ (Ne.symm hj)]
            · rw [gen_setIndexAt, List.get?_set_ne _ _ (Ne.symm hj)]
          · rw [hm]
            simpa using heq
          · cases r.2
            · rw [List.get?_set_eq, hm]
              simp [heq]
            · rw [gen_setIndexAt, List.get?_set_eq, hm]
              simp [heq]

theorem step_gens (w : World) (op : Op) (w2 : World) (h : w.step op = some w2) :
    w.entities.length ≤ w2.entities.length ∧
    ∀ j, j < w.entities.length →
      ((w2.entities.get? j).map EntityMeta.generation
         = (w.entities.get? j).map EntityMeta.generation ∨
       ∃ e, op = Op.despawn e ∧ e.id = j ∧
         (w.entities.get? j).map EntityMeta.generation = some e.generation ∧
         (w2.entities.get? j).map EntityMeta.generation
           = some (e.generation + 1)) := by
  cases op with
  | spawn cs =>
    simp only [World.step] at h
    cases hs : w.spawn cs with
    | none => rw [hs] at h; exact absurd h (by simp)
    | some p =>
      rw [hs] at h
      simp only [Option.map_some'] at h
      injection h with h2
      subst h2
      obtain ⟨h1, h2⟩ := spawn_gens w cs p hs
      exact ⟨h1, fun j hj => Or.inl (h2 j hj)⟩
  | despawn e =>
    simp only [World.step] at h
    cases hs : w.despawn e with
    | none => rw [hs] at h; exact absurd h (by simp)
    | some res =>
      rw [hs] at h
      simp only [Option.map_some'] at h
      injection h with h2
      subst h2
      rcases despawn_cases w e res hs with ⟨-, hw, -⟩ | ⟨-, hlen, hoth, hat, hat2⟩
      · rw [hw]
        exact ⟨le_refl _, fun j hj => Or.inl rfl⟩
      · refine ⟨hlen.ge, fun j hj => ?_⟩
        rcases eq_or_ne j e.id with rfl | hne
        · exact Or.inr ⟨e, rfl, rfl, hat, hat2⟩
        · exact Or.inl (hoth j hne)
  | get e t =>
    simp only [World.step] at h
    cases hs : w.get e t with
    | none => rw [hs] at h; exact absurd h (by simp)
    | some v =>
      rw [hs] at h
      simp only [Option.map_some'] at h
      injection h with h2
      subst h2
      exact ⟨le_refl _, fun j hj => Or.inl rfl⟩
  | get_mut e t =>
    simp only [World.step] at h
    cases hs : w.get_mut e t with
    | none => rw [hs] at h; exact absurd h (by simp)
    | some v =>
      rw [hs] at h
      simp only [Option.map_some'] at h
      injection h with h2
      subst h2
      exact ⟨le_refl _, fun j hj => Or.inl rfl⟩

/-- C10: over every non-panicking public operation, the stored generation of
every allocated id never decreases, and it changes only through a successful
despawn of a live handle with that id, which increments it by exactly 1.
Stated for arbitrary worlds, so it covers every reachable state. -/
theorem c10_generation_monotone (w : World) (op : Op) (w2 : World) (i : Nat)
    (m : EntityMeta) (hstep : w.step op = some w2)
    (hm : w.entities.get? i = some m) :
    ∃ m2, w2.entities.get? i = some m2 ∧ m.generation ≤ m2.generation ∧
      (m2.generation = m.generation ∨
       ∃ e, op = Op.despawn e ∧ e.id = i ∧ e.generation = m.generation ∧
         m2.generation = m.generation + 1) := by
  have hi : i < w.entities.length :=
    List.get?_eq_some.mp hm |>.fst
  obtain ⟨-, hgen⟩ := step_gens w op w2 hstep
  rcases hgen i hi with heq | ⟨e, hop, hid, h1, h2⟩
  · rw [hm] at heq
    obtain ⟨m2, hm2, hg2⟩ := Option.map_eq_some'.mp heq
    exact ⟨m2, hm2, hg2.ge, Or.inl hg2⟩
  · rw [hm] at h1
    simp only [Option.map_some', Option.some.injEq] at h1
    obtain ⟨m2, hm2, hg2⟩ := Option.map_eq_some'.mp h2
    refine ⟨m2, hm2, ?_, Or.inr ⟨e, hop, hid, h1.symm, ?_⟩⟩
    · rw [hg2, ← h1]
      exact Nat.le_succ _
    · rw [hg2, ← h1]

/-- Witness for C10 at a concrete input: despawning the live entity 0 of the
one-entity world increments its stored generation from 0 to exactly 1. -/
theorem c10_generation_monotone_witness :
    ∃ m2, c10SteppedWorld.entities.get? 0 = some m2 ∧
      EntityMeta.generation ⟨0, 0, 0⟩ ≤ m2.generation ∧
      (m2.generation = EntityMeta.generation ⟨0, 0, 0⟩ ∨
       ∃ e, Op.despawn ⟨0, 0⟩ = Op.despawn e ∧ e.id = 0 ∧
         e.generation = EntityMeta.generation ⟨0, 0, 0⟩ ∧
         m2.generation = EntityMeta.generation ⟨0, 0, 0⟩ + 1) :=
  c10_generation_monotone oneSpawnWorld (Op.despawn ⟨0, 0⟩) c10SteppedWorld 0
    ⟨0, 0, 0⟩ rfl rfl

theorem run_stale (e : Entity) :
    ∀ (ops : List Op) (w w2 : World),
      World.run w ops = some w2 →
      (∃ m, w.entities.get? e.id = some m ∧ e.generation < m.generation) →
      ∃ m2, w2.entities.get? e.id = some m2 ∧ e.generation < m2.generation := by
  intro ops
  induction ops with
  | nil =>
    intro w w2 hrun hst
    simp only [World.run] at hrun
    injection hrun with h2
    subst h2
    exact hst
  | cons op rest ih =>
    intro w w2 hrun hst
    simp only [World.run] at hrun
    cases hs : w.step op with
    | none => rw [hs] at hrun; exact absurd hrun (by simp)
    | some w1 =>
      rw [hs] at hrun
      refine ih w1 w2 hrun ?_
      obtain ⟨m, hm, hlt⟩ := hst
      have hi : e.id < w.entities.length := (List.get?_eq_some.mp hm).fst
      obtain ⟨-, hgen⟩ := step_gens w op w1 hs
      rcases hgen e.id hi with heq | ⟨e2, -, -, h1, h2⟩
      · rw [hm] at heq
        obtain ⟨m2, hm2, hg2⟩ := Option.map_eq_some'.mp heq
        exact ⟨m2, hm2, by rw [hg2]; exact hlt⟩
      · rw [hm] at h1
        simp only [Option.map_some', Option.some.injEq] at h1
        obtain ⟨m2, hm2, hg2⟩ := Option.map_eq_some'.mp h2
        refine ⟨m2, hm2, ?_⟩
        rw [hg2, ← h1]
        exact hlt.trans (Nat.lt_succ_self _)

/-- C6: after a handle is despawned, every previously made copy of it fails
get and get_mut (absent result) and despawn (false, no state change) in every
subsequent non-panicking state, even across later spawns: the stored
generation was bumped past the handle generation and never decreases, so the
mismatch persists. -/
theorem c6_stale_handle_forever (w : World) (e : Entity) (w1 : World)
    (ops : List Op) (w2 : World) (t : Nat)
    (hd : World.despawn w e = some (true, w1))
    (hrun : World.run w1 ops = some w2) :
    World.get w2 e t = some none ∧ World.get_mut w2 e t = some none ∧
      World.despawn w2 e = some (false, w2) := by
  have hst1 : ∃ m, w1.entities.get? e.id = some m ∧ e.generation < m.generation := by
    rcases despawn_cases w e (true, w1) hd with ⟨hf, -, -⟩ | ⟨-, -, -, -, hat2⟩
    · exact absurd hf (by simp)
    · obtain ⟨m, hm, hg⟩ := Option.map_eq_some'.mp hat2
      exact ⟨m, hm, by rw [hg]; exact Nat.lt_succ_self e.generation⟩
  obtain ⟨m2, hm2, hlt⟩ := run_stale e ops w1 w2 hrun hst1
  have hne : m2.generation ≠ e.generation := Nat.ne_of_gt hlt
  refine ⟨?_, ?_, ?_⟩ <;>
    simp [World.get, World.get_mut, World.despawn, ← List.get?_eq_getElem?,
          hm2, hne]

/-- Witness for C6 at a concrete input: entity 0 of the one-entity world is
despawned, a later spawn occurs, and the old handle still fails get, get_mut
and despawn. -/
theorem c6_stale_handle_forever_witness :
    World.get c6FinalWorld ⟨0, 0⟩ 0 = some none ∧
      World.get_mut c6FinalWorld ⟨0, 0⟩ 0 = some none ∧
      World.despawn c6FinalWorld ⟨0, 0⟩ = some (false, c6FinalWorld) :=
  c6_stale_handle_forever oneSpawnWorld ⟨0, 0⟩ c6DespawnedWorld
    [Op.spawn [⟨0, 2⟩]] c6FinalWorld 0 rfl rfl

/-! Helper lemmas about the builder. -/

theorem build_ids_canonical (b : EntityBuilder) :
    (b.build).ids = List.insertionSort (· ≤ ·) (b.info.map Prod.fst) := by
  haveI : IsTotal (Nat × Nat) (fun x y => x.1 ≤ y.1) :=
    ⟨fun a b => Nat.le_total a.1 b.1⟩
  haveI : IsTrans (Nat × Nat) (fun x y => x.1 ≤ y.1) :=
    ⟨fun a b c hab hbc => le_trans hab hbc⟩
  unfold EntityBuilder.build
  dsimp only
  exact @List.eq_of_perm_of_sorted Nat (· ≤ ·) _ _ _
    (((List.perm_insertionSort _ b.info).map Prod.fst).trans
      (List.perm_insertionSort _ _).symm)
    (List.Pairwise.map Prod.fst (fun a b h => h)
      (List.sorted_insertionSort _ b.info))
    (List.sorted_insertionSort _ _)

theorem add_info_fst (b : EntityBuilder) (c : Comp) :
    ((b.add c).info).map Prod.fst = b.info.map Prod.fst ++ [c.ty] := by
  unfold EntityBuilder.add
  dsimp only
  split <;> simp [EntityBuilder.grow]

theorem addAll_info_fst (cs : List Comp) :
    ∀ b : EntityBuilder,
      ((b.addAll cs).info).map Prod.fst = b.info.map Prod.fst ++ cs.map Comp.ty := by
  induction cs with
  | nil => intro b; simp [EntityBuilder.addAll]
  | cons c rest ih =>
    intro b
    have hstep : (b.addAll (c :: rest)) = ((b.add c).addAll rest) := rfl
    rw [hstep, ih (b.add c), add_info_fst]
    simp

/-- C2, amended: dynamic-builder bundles canonicalize ordering, so two add
sequences that are permutations of each other produce the same ids list (the
archetype identity key) after build; the tuple path instead keys the archetype
index by the supplied order, so differently-ordered tuples land in different
archetypes (see the counterexample). -/
theorem c2_builder_canonical_order (b : EntityBuilder) (cs1 cs2 : List Comp)
    (hperm : cs1.Perm cs2) :
    ((b.addAll cs1).build).ids = ((b.addAll cs2).build).ids := by
  rw [build_ids_canonical, build_ids_canonical, addAll_info_fst cs1 b,
      addAll_info_fst cs2 b]
  refine List.eq_of_perm_of_sorted ?_ (List.sorted_insertionSort _ _)
    (List.sorted_insertionSort _ _)
  exact (List.perm_insertionSort _ _).trans
    ((List.Perm.append_left _ (hperm.map Comp.ty)).trans
      (List.perm_insertionSort _ _).symm)

/-- Witness for the amended C2 at a concrete input: two components staged in
either order build to the same canonical ids list. -/
theorem c2_builder_canonical_order_witness :
    (([⟨1, 1, [8]⟩, ⟨0, 1, [7]⟩] : List Comp).Perm [⟨0, 1, [7]⟩, ⟨1, 1, [8]⟩]) ∧
      ((EntityBuilder.new.addAll [⟨1, 1, [8]⟩, ⟨0, 1, [7]⟩]).build).ids
        = ((EntityBuilder.new.addAll [⟨0, 1, [7]⟩, ⟨1, 1, [8]⟩]).build).ids :=
  ⟨List.Perm.swap _ _ _,
   c2_builder_canonical_order EntityBuilder.new _ _ (List.Perm.swap _ _ _)⟩

theorem count_map_inj (f : Nat × Nat → OwnershipEvent)
    (hf : Function.Injective f) (p : Nat × Nat) :
    ∀ l : List (Nat × Nat), (l.map f).count (f p) = l.count p := by
  intro l
  induction l with
  | nil => rfl
  | cons x rest ih =>
    by_cases hx : x = p
    · subst hx
      simp [List.count_cons, ih]
    · have hfx : f x ≠ f p := fun hc => hx (hf hc)
      simp [List.count_cons, ih, hx, hfx]

/-- C7: the spawn path of a BuiltEntity (store, then the Drop run Rust still
performs on the consumed value) transfers each staged entry exactly once and
runs no destructor, while the discard path runs each destructor exactly once
and transfers nothing; both paths drain the entry list, and a subsequent
build over fresh adds matches a fresh builder, so the builder is reusable for
an unrelated component set. -/
theorem c7_store_or_drop_exactly_once (b : EntityBuilder) (p : Nat × Nat)
    (cs : List Comp) :
    ((BuiltEntity.spawnPath b).1.count (OwnershipEvent.transferred p.1 p.2)
        = b.info.count p ∧
     (BuiltEntity.spawnPath b).1.count (OwnershipEvent.destructed p.1 p.2) = 0) ∧
    ((BuiltEntity.dropRun b).1.count (OwnershipEvent.destructed p.1 p.2)
        = b.info.count p ∧
     (BuiltEntity.dropRun b).1.count (OwnershipEvent.transferred p.1 p.2) = 0) ∧
    (BuiltEntity.spawnPath b).2.info = [] ∧
    (BuiltEntity.dropRun b).2.info = [] ∧
    (((BuiltEntity.spawnPath b).2.addAll cs).build).ids
      = ((EntityBuilder.new.addAll cs).build).ids ∧
    (((BuiltEntity.dropRun b).2.addAll cs).build).ids
      = ((EntityBuilder.new.addAll cs).build).ids := by
  have hinj_t :
      Function.Injective (fun q : Nat × Nat => OwnershipEvent.transferred q.1 q.2) := by
    intro a b h
    cases a
    cases b
    simpa using h
  have hinj_d :
      Function.Injective (fun q : Nat × Nat => OwnershipEvent.destructed q.1 q.2) := by
    intro a b h
    cases a
    cases b
    simpa using h
  refine ⟨⟨?_, ?_⟩, ⟨?_, ?_⟩, rfl, rfl, ?_, ?_⟩
  · show ((b.info.map fun q : Nat × Nat => OwnershipEvent.transferred q.1 q.2)
        ++ []).count (OwnershipEvent.transferred p.1 p.2) = b.info.count p
    rw [List.append_nil]
    exact count_map_inj _ hinj_t p b.info
  · show ((b.info.map fun q : Nat × Nat => OwnershipEvent.transferred q.1 q.2)
        ++ []).count (OwnershipEvent.destructed p.1 p.2) = 0
    rw [List.append_nil, List.count_eq_zero]
    intro hmem
    obtain ⟨q, -, hq⟩ := List.mem_map.mp hmem
    exact absurd hq (by simp)
  · exact count_map_inj _ hinj_d p b.info
  · rw [List.count_eq_zero]
    intro hmem
    obtain ⟨q, -, hq⟩ := List.mem_map.mp hmem
    exact absurd hq (by simp)
  · rw [build_ids_canonical, build_ids_canonical, addAll_info_fst,
        addAll_info_fst]
    rfl
  · rw [build_ids_canonical, build_ids_canonical, addAll_info_fst,
        addAll_info_fst]
    rfl

/-! Helper lemmas about arena growth. -/

theorem writeAt_length (bs : List Nat) :
    ∀ (l : List Nat) (off : Nat), (writeAt l off bs).length = l.length := by
  induction bs with
  | nil => intro l off; rfl
  | cons x rest ih =>
    intro l off
    unfold writeAt
    rw [ih, List.length_set]

theorem le_nextPowerOfTwo (n : Nat) : n ≤ nextPowerOfTwo n :=
  Nat.le_pow_clog Nat.one_lt_two n

theorem grow_storage_length (b : EntityBuilder) (inc : Nat) :
    (b.grow inc).storage.length
      = max (max (nextPowerOfTwo (b.storage.length + inc))
                 (b.storage.length * 2)) 64 := by
  have hle : b.storage.length
      ≤ max (max (nextPowerOfTwo (b.storage.length + inc))
                 (b.storage.length * 2)) 64 :=
    le_trans (le_trans (Nat.le_add_right _ inc) (le_nextPowerOfTwo _))
      (le_trans (le_max_left _ _) (le_max_left _ _))
  unfold EntityBuilder.grow
  dsimp only
  rw [List.length_append, List.length_replicate, Nat.sub_add_cancel hle]

theorem grow_ge_64 (b : EntityBuilder) (inc : Nat) :
    64 ≤ (b.grow inc).storage.length := by
  rw [grow_storage_length]
  exact le_max_right _ _

theorem grow_copies_tail (b : EntityBuilder) (inc : Nat) :
    (b.grow inc).storage.drop ((b.grow inc).storage.length - b.storage.length)
      = b.storage := by
  unfold EntityBuilder.grow
  dsimp only
  rw [List.length_append, List.length_replicate, Nat.add_sub_cancel]
  simp

theorem pow2_max (a b : Nat) (ha : ∃ k, a = 2 ^ k) (hb : ∃ k, b = 2 ^ k) :
    ∃ k, max a b = 2 ^ k := by
  rcases le_total a b with h | h
  · rw [max_eq_right h]; exact hb
  · rw [max_eq_left h]; exact ha

theorem grow_pow2 (b : EntityBuilder) (inc : Nat)
    (hb : b.storage.length = 0 ∨ ∃ k, b.storage.length = 2 ^ k) :
    ∃ k, (b.grow inc).storage.length = 2 ^ k := by
  rw [grow_storage_length]
  rcases hb with h0 | ⟨k, hk⟩
  · rw [h0]
    simp only [Nat.zero_mul]
    rw [max_eq_left (Nat.zero_le _)]
    exact pow2_max _ _ ⟨_, rfl⟩ ⟨6, rfl⟩
  · rw [hk]
    exact pow2_max _ _
      (pow2_max _ _ ⟨_, rfl⟩ ⟨k + 1, (pow_succ 2 k).symm⟩) ⟨6, rfl⟩

theorem add_storage_inv (b : EntityBuilder) (c : Comp)
    (hb : b.storage.length = 0 ∨
      ∃ k, b.storage.length = 2 ^ k ∧ 64 ≤ b.storage.length) :
    (b.add c).storage.length = 0 ∨
      ∃ k, (b.add c).storage.length = 2 ^ k ∧ 64 ≤ (b.add c).storage.length := by
  unfold EntityBuilder.add
  dsimp only
  split
  · right
    rw [writeAt_length]
    obtain ⟨k, hk⟩ := grow_pow2 { b with max_align := max b.max_align c.align }
      c.bytes.length (hb.imp id (fun hex => hex.imp fun k hk => hk.1))
    exact ⟨k, hk, grow_ge_64 _ _⟩
  · rw [writeAt_length]
    exact hb

theorem addAll_storage_inv (cs : List Comp) :
    ∀ b : EntityBuilder,
      (b.storage.length = 0 ∨
        ∃ k, b.storage.length = 2 ^ k ∧ 64 ≤ b.storage.length) →
      ((b.addAll cs).storage.length = 0 ∨
        ∃ k, (b.addAll cs).storage.length = 2 ^ k ∧
          64 ≤ (b.addAll cs).storage.length) := by
  induction cs with
  | nil => intro b hb; exact hb
  | cons c rest ih => intro b hb; exact ih (b.add c) (add_storage_inv b c hb)

/-- C8: growing the arena of a builder reached by any sequence of add calls
yields a power-of-two size of at least 64 bytes and at least double the
previous size, and the previously stored bytes sit at the tail (highest
offsets) of the new region. -/
theorem c8_grow_postconditions (cs : List Comp) (inc : Nat)
    (b g : EntityBuilder) (hb : b = EntityBuilder.new.addAll cs)
    (hg : g = b.grow inc) :
    (∃ k, g.storage.length = 2 ^ k) ∧ 64 ≤ g.storage.length ∧
      2 * b.storage.length ≤ g.storage.length ∧
      g.storage.drop (g.storage.length - b.storage.length) = b.storage := by
  subst hb hg
  have hinv := addAll_storage_inv cs EntityBuilder.new (Or.inl rfl)
  refine ⟨grow_pow2 _ inc (hinv.imp id (fun hex => hex.imp fun k hk => hk.1)),
    grow_ge_64 _ _, ?_, grow_copies_tail _ _⟩
  rw [grow_storage_length, Nat.mul_comm]
  exact le_trans (le_max_right _ _) (le_max_left _ _)

/-- Witness for C8 at a concrete input: growing the fresh empty arena by 1
byte produces the 64-byte minimum region. -/
theorem c8_grow_postconditions_witness :
    (∃ k, ((EntityBuilder.new.addAll []).grow 1).storage.length = 2 ^ k) ∧
      64 ≤ ((EntityBuilder.new.addAll []).grow 1).storage.length ∧
      2 * (EntityBuilder.new.addAll []).storage.length
        ≤ ((EntityBuilder.new.addAll []).grow 1).storage.length ∧
      ((EntityBuilder.new.addAll []).grow 1).storage.drop
          (((EntityBuilder.new.addAll []).grow 1).storage.length
            - (EntityBuilder.new.addAll []).storage.length)
        = (EntityBuilder.new.addAll []).storage :=
  c8_grow_postconditions [] 1 _ _ rfl rfl

end Hecs
